import Mathlib

/-!
Verification development for the napcat-channel plugin (NapCat / OneBot 11
bridge).  The definitions below are a shallow embedding of the TypeScript
sources:

* `src/api/client.ts`  — `NapCatApiClient` (dual-transport action client,
  correlation tokens, WebSocket request timeout),
* `src/runtime.ts`     — `NapCatRuntime` (reconnect backoff, stop, close
  handling, payload demultiplexing),
* `src/channel.ts`     — inbound-message normalization (admin allowlist,
  mention gate, text/media extraction) and the reply delivery pipeline
  (dedup window, media resolution, segment assembly).

JavaScript-specific behaviour (truthiness of strings, `||` on possibly
empty strings, strict `===` between a string and a possibly-`undefined`
value) is modelled explicitly via `Option String` and the helpers below.
-/

/-- JS `String.prototype.startsWith`, on the character list. -/
def jsStartsWith (s p : String) : Bool := p.data.isPrefixOf s.data

/-- JS `String.prototype.endsWith`, on the character list. -/
def jsEndsWith (s p : String) : Bool := p.data.isSuffixOf s.data

/-- JS `String.prototype.includes`, on the character list. -/
def jsIncludes (s p : String) : Bool := s.data.tails.any (fun t => p.data.isPrefixOf t)

/-- JS `String.prototype.trim`: strip leading and trailing whitespace. -/
def jsTrim (s : String) : String :=
  String.mk (((s.data.dropWhile Char.isWhitespace).reverse.dropWhile Char.isWhitespace).reverse)

/-- JS truthiness of a string-valued expression that may be `undefined`:
`undefined` and the empty string are falsy. -/
def jsTruthy : Option String → Bool
  | none => false
  | some s => s ≠ ""

/-- JS `a || b` on string-valued expressions (falsy left operand selects
the right operand). -/
def jsOr (a b : Option String) : Option String :=
  if jsTruthy a then a else b

/-! ### Action client (src/api/client.ts) -/

/-- `readyState` of a `ws` WebSocket. -/
inductive WsReadyState
  | connecting
  | opened
  | closingState
  | closedState
  deriving DecidableEq, Repr

/-- Mutable state of `NapCatApiClient` relevant to transport selection and
correlation: `httpUrl` (set in the constructor only when the configured URL
is truthy), the optional socket handle with its ready state, and the
`wsSequence` counter used for correlation tokens. -/
structure NapCatApiClientState where
  httpUrl : Option String
  ws : Option WsReadyState
  wsSequence : Nat
  deriving DecidableEq, Repr

/-- `config.httpUrl.replace(/\/$/, '')`: strip one trailing slash. -/
def stripTrailingSlash (s : String) : String :=
  if jsEndsWith s "/" then String.mk (s.data.dropLast) else s

/-- The `NapCatApiClient` constructor: `httpUrl` is stored (with the
trailing slash stripped) only when the configured value is truthy. -/
def mkClient (configHttpUrl : Option String) : NapCatApiClientState :=
  { httpUrl := if jsTruthy configHttpUrl then some (stripTrailingSlash (configHttpUrl.getD ""))
               else none
    ws := none
    wsSequence := 0 }

/-- Which transport `request` picks. -/
inductive Chosen
  | http
  | wsTransport
  deriving DecidableEq, Repr

/-- `this.ws && this.ws.readyState === WebSocket.OPEN`. -/
def wsOpenB (c : NapCatApiClientState) : Bool :=
  match c.ws with
  | some r => r = WsReadyState.opened
  | none => false

/-- `NapCatApiClient.request`: HTTP if configured, else the socket if open,
else the "no transport" error (the thrown message, verbatim). -/
def request (c : NapCatApiClientState) : Except String Chosen :=
  if jsTruthy c.httpUrl then Except.ok Chosen.http
  else if wsOpenB c then Except.ok Chosen.wsTransport
  else Except.error "No available transport for API request (HTTP not configured, WS not connected)"

/-- Correlation token built in `requestWs`:
`api_${Date.now()}_${this.wsSequence++}`. -/
def mkEcho (now seq : Nat) : String :=
  "api_" ++ Nat.repr now ++ "_" ++ Nat.repr seq

/-- The WebSocket request timeout from `requestWs` (`setTimeout(..., 10000)`). -/
def wsRequestTimeoutMs : Nat := 10000

/-! ### Message segments and inbound normalization (src/channel.ts) -/

/-- An OneBot 11 message segment: a `type` tag plus the `data` fields the
channel code reads (`data.text`, `data.qq`, `data.url`, `data.file`), each
possibly absent. -/
structure Seg where
  type : String
  text : Option String := none
  qq : Option String := none
  url : Option String := none
  file : Option String := none
  deriving DecidableEq, Repr

/-- `message_type` of an inbound message event. -/
inductive MsgType
  | priv
  | group
  deriving DecidableEq, Repr

/-- `message` field: a raw CQ-code string or a segment array. -/
inductive Message
  | str (s : String)
  | segs (l : List Seg)
  deriving DecidableEq, Repr

/-- The fields of an `OB11MessageEvent` read by `onMessage`. -/
structure MessageEvent where
  message_type : MsgType
  user_id : Nat
  self_id : Nat
  message_id : Nat
  group_id : Option Nat := none
  message : Message
  deriving DecidableEq, Repr

/-- Text extraction over a segment array:
`message.filter(seg => seg.type === 'text').map(seg => seg.data.text).join('')`
(`Array.prototype.join` renders `undefined` as the empty string). -/
def extractTextSegs (l : List Seg) : String :=
  String.join ((l.filter (fun s => s.type = "text")).map (fun s => s.text.getD ""))

/-- Text extraction over the `message` field (string bodies are used as-is). -/
def extractText : Message → String
  | Message.str s => s
  | Message.segs l => extractTextSegs l

/-- First image segment's `data.url || data.file` (string bodies yield no
media); the surrounding `if (imageSeg && imageSeg.data)` guard. -/
def extractMedia : Message → Option String
  | Message.str _ => none
  | Message.segs l =>
    match l.find? (fun s => s.type = "image") with
    | some s => jsOr s.url s.file
    | none => none

/-- Group-mention check over a segment array:
`message.some(seg => seg.type === 'at' && String(seg.data.qq) === String(message.self_id))`
(`String(undefined)` is `"undefined"`). -/
def isMentionedSegs (l : List Seg) (selfId : Nat) : Bool :=
  l.any (fun s => s.type = "at" && (s.qq.getD "undefined") = Nat.repr selfId)

/-- Group-mention check over the `message` field; a string body uses the
legacy inline marker `[CQ:at,qq=<self>]`. -/
def isMentioned (m : Message) (selfId : Nat) : Bool :=
  match m with
  | Message.segs l => isMentionedSegs l selfId
  | Message.str s => jsIncludes s ("[CQ:at,qq=" ++ Nat.repr selfId ++ "]")

/-- Admin allowlist filter:
`if (account.adminUins && account.adminUins.length > 0) { if (!includes(user_id)) return }`.
Returns `true` when the message passes the filter. -/
def adminAllows (adminUins : Option (List Nat)) (userId : Nat) : Bool :=
  match adminUins with
  | none => true
  | some l => if l.length > 0 then l.contains userId else true

/-- Mention gate: only group messages are subject to the mention check;
private messages always pass. -/
def mentionGate (ev : MessageEvent) : Bool :=
  if ev.message_type = MsgType.group then isMentioned ev.message ev.self_id
  else true

/-- Result of inbound normalization: the text handed to the agent and the
extracted media reference. -/
structure Normalized where
  text : String
  mediaUrl : Option String
  deriving DecidableEq, Repr

/-- The pure prefix of `onMessage` (src/channel.ts): admin allowlist, group
mention gate, text extraction + `trim()`, `[Image]` placeholder, media-URL
annotation, and the final empty-text drop.  `none` means the event is
ignored. -/
def normalizeEvent (adminUins : Option (List Nat)) (ev : MessageEvent) : Option Normalized :=
  if !adminAllows adminUins ev.user_id then none
  else if !mentionGate ev then none
  else
    let messageText := jsTrim (extractText ev.message)
    let mediaUrl := extractMedia ev.message
    let messageText := if messageText = "" && jsTruthy mediaUrl then "[Image]" else messageText
    let messageText :=
      if jsTruthy mediaUrl then messageText ++ "\n[MediaUrl: " ++ mediaUrl.getD "" ++ "]"
      else messageText
    if messageText = "" then none else some { text := messageText, mediaUrl := mediaUrl }

/-! ### Reply delivery pipeline (the `deliver` callback in src/channel.ts) -/

/-- The filesystem as seen by `deliver`: `fs.existsSync` and
`fs.readFileSync(..).toString('base64')` (`none` models a read that
throws). -/
structure FS where
  pathExists : String → Bool
  readBase64 : String → Option String

/-- Media resolution for one media item: an existing absolute local path is
re-encoded as `base64://…` (falling back to `file://…` when the read
throws); any other absolute path gets the `file://` prefix; everything else
is passed through. -/
def resolveMediaItem (fs : FS) (item : String) : String :=
  if jsStartsWith item "/" && fs.pathExists item then
    match fs.readBase64 item with
    | some b64 => "base64://" ++ b64
    | none => if jsStartsWith item "file://" then item else "file://" ++ item
  else if jsStartsWith item "/" && !jsStartsWith item "file://" then "file://" ++ item
  else item

/-- One `recentReplies` record: last sent text and its `Date.now()`
timestamp. -/
structure RecentReply where
  text : String
  timestamp : Int
  deriving DecidableEq, Repr

/-- `REPLY_DEDUP_WINDOW_MS`. -/
def replyDedupWindowMs : Int := 5000

/-- The `message` body of the send action: a plain string (text-only
replies) or a segment array. -/
inductive MsgBody
  | plain (t : Option String)
  | segsBody (l : List Seg)
  deriving DecidableEq, Repr

/-- `{ type: 'text', data: { text: t } }`. -/
def textSeg (t : String) : Seg := { type := "text", text := some t }

/-- `{ type: 'image', data: { file: f } }`. -/
def imageSeg (f : String) : Seg := { type := "image", file := some f }

/-- The `deliver` callback for one reply payload, for a fixed
`(conversation, originating message id)` key.  `last` is the
`recentReplies` record for that key; `replyText` is `payload.text`
(possibly `undefined`), `replyMedia` the extracted media list, `now` the
current `Date.now()`.  Returns the updated record and the send action's
message body (`none` when no send action fires: empty payload or
suppressed duplicate). -/
def deliver (fs : FS) (last : Option RecentReply) (replyText : Option String)
    (replyMedia : List String) (now : Int) : Option RecentReply × Option MsgBody :=
  if !jsTruthy replyText && replyMedia.length = 0 then (last, none)
  else if replyMedia.length = 0
      && (match last with
          | some l => replyText = some l.text && now - l.timestamp < replyDedupWindowMs
          | none => false) then (last, none)
  else
    let body :=
      if replyMedia.length = 0 then MsgBody.plain replyText
      else MsgBody.segsBody
        ((if jsTruthy replyText then [textSeg (replyText.getD "")] else [])
          ++ replyMedia.map (fun m => imageSeg (resolveMediaItem fs m)))
    (some { text := replyText.getD "", timestamp := now }, some body)

/-- Two consecutive `deliver` calls for the same key, starting with no
record for that key; returns how many send actions fired. -/
def sendsOfTwo (fs : FS) (t1 : Option String) (m1 : List String) (time1 : Int)
    (t2 : Option String) (m2 : List String) (time2 : Int) : Nat :=
  let r1 := deliver fs none t1 m1 time1
  let r2 := deliver fs r1.1 t2 m2 time2
  r1.2.toList.length + r2.2.toList.length

/-- A filesystem on which nothing exists and every read throws. -/
def fsEmpty : FS := { pathExists := fun _ => false, readBase64 := fun _ => none }

/-! ### Reconnect backoff (src/runtime.ts) -/

/-- `maxReconnectAttempts`. -/
def maxReconnectAttempts : Nat := 10

/-- `baseReconnectDelay` (ms). -/
def baseReconnectDelay : ℚ := 3000

/-- The backoff delay computed for reconnect attempt `n` (1-based):
`Math.min(baseReconnectDelay * Math.pow(1.5, n - 1), 60000)`.  All the
floating-point values involved are exactly representable, so the rational
value is the exact IEEE result. -/
def reconnectDelay (n : Nat) : ℚ :=
  min (baseReconnectDelay * (3 / 2 : ℚ) ^ (n - 1)) 60000

/-- The whole-millisecond delay the timer is scheduled with: Node's timer
machinery truncates fractional milliseconds (`Math.trunc` on insertion);
the values are positive so truncation is `Int.floor`. -/
def scheduledDelayMs (n : Nat) : ℤ := ⌊reconnectDelay n⌋

/-- The `NapCatRuntime` fields read by `scheduleReconnect`. -/
structure RtS where
  reconnectAttempts : Nat
  isClosing : Bool
  wsUrlConfigured : Bool
  deriving DecidableEq, Repr

/-- Outcome of one `scheduleReconnect` call. -/
inductive ScheduleOutcome
  | timer (delay : ℚ)
  | maxReached
  | skipped
  deriving DecidableEq, Repr

/-- `NapCatRuntime.scheduleReconnect`: skip when closing or no `wsUrl`;
terminal error once `reconnectAttempts` has reached the cap; otherwise
increment the counter and schedule a timer with the backoff delay. -/
def scheduleReconnect (s : RtS) : RtS × ScheduleOutcome :=
  if s.isClosing then (s, ScheduleOutcome.skipped)
  else if !s.wsUrlConfigured then (s, ScheduleOutcome.skipped)
  else if s.reconnectAttempts ≥ maxReconnectAttempts then (s, ScheduleOutcome.maxReached)
  else
    let a := s.reconnectAttempts + 1
    ({ s with reconnectAttempts := a }, ScheduleOutcome.timer (reconnectDelay a))

/-- A runtime that is connected-and-not-closing with a configured `wsUrl`
and a fresh attempt counter. -/
def freshRt : RtS := { reconnectAttempts := 0, isClosing := false, wsUrlConfigured := true }

/-- Iterate `scheduleReconnect` `k` times, collecting the delays of the
timers actually scheduled. -/
def scheduleRun : RtS → Nat → RtS × List ℚ
  | s, 0 => (s, [])
  | s, k + 1 =>
    let p := scheduleReconnect s
    let rest := scheduleRun p.1 k
    (rest.1, (match p.2 with | ScheduleOutcome.timer d => [d] | _ => []) ++ rest.2)

/-! ### Event-trace model of the runtime + pending-request table

`NapCatApiClient.requestWs` registers a `once` listener keyed by the
correlation token and a 10-second timeout; the timeout callback removes the
listener and rejects, the listener callback clears the timeout and settles.
Every settle path removes both, so a pending request is faithfully
represented by the mere presence of its token in the `pending` list.
`NapCatRuntime` owns `isClosing`/`reconnectAttempts` and the socket
(`wsAttached`: the socket is open and wired into the client). -/

/-- The fields of an OneBot action response frame read by the client. -/
structure OB11Resp where
  status : String
  retcode : Int
  echo : Option String
  deriving DecidableEq, Repr

/-- How a pending request settles. -/
inductive SettleKind
  | timeoutErr
  | napcatErr (retcode : Int)
  | resolved
  deriving DecidableEq, Repr

/-- The `once` listener body in `requestWs`: a `failed` status with nonzero
`retcode` rejects with a NapCat API error, anything else resolves. -/
def interpretResponse (r : OB11Resp) : SettleKind :=
  if r.status = "failed" && r.retcode ≠ 0 then SettleKind.napcatErr r.retcode
  else SettleKind.resolved

/-- Combined state: runtime fields plus the client's pending-request
table (the correlation tokens with a live listener/timeout). -/
structure SysState where
  rt : RtS
  wsAttached : Bool
  pending : List String
  deriving DecidableEq, Repr

/-- External events driving the system. -/
inductive SysEvent
  | stopCall
  | wsClose
  | reconnectTimer
  | reqTimeout (echo : String)
  | frame (r : OB11Resp)
  deriving DecidableEq, Repr

/-- Observable actions the system performs. -/
inductive SysAction
  | scheduleTimer (delay : ℚ)
  | maxAttemptsError
  | reconnectStart
  | settle (echo : String) (k : SettleKind)
  deriving DecidableEq, Repr

/-- Is this action a pending-request callback firing? -/
def isSettle : SysAction → Bool
  | SysAction.settle _ _ => true
  | _ => false

/-- Is this action part of the reconnect machinery? -/
def isReconnectAction : SysAction → Bool
  | SysAction.scheduleTimer _ => true
  | SysAction.reconnectStart => true
  | _ => false

/-- One step of the system.

* `stopCall` — `stop()`: set `isClosing`, close and drop the socket, reset
  the attempt counter; pending requests are untouched.
* `wsClose` — the socket's `close` event: detach the socket from the
  client, then (unless closing) run `scheduleReconnect`.
* `reconnectTimer` — a reconnect timer fires: guarded by `isClosing`.
* `reqTimeout e` — the 10-second timeout of request `e` fires: if still
  pending, remove it (listener removed) and reject with the timeout error.
* `frame r` — an inbound frame (only delivered while the socket is
  attached): a truthy `echo` is routed to `handleWsResponse`, which fires
  and removes the matching `once` listener, or does nothing when no
  pending request carries that token; frames without a truthy `echo` go to
  event classification and never touch the table. -/
def stepSys (s : SysState) (e : SysEvent) : SysState × List SysAction :=
  match e with
  | SysEvent.stopCall =>
    ({ rt := { reconnectAttempts := 0, isClosing := true,
               wsUrlConfigured := s.rt.wsUrlConfigured }
       wsAttached := false, pending := s.pending }, [])
  | SysEvent.wsClose =>
    let s1 : SysState := { s with wsAttached := false }
    if s.rt.isClosing then (s1, [])
    else
      let p := scheduleReconnect s1.rt
      ({ s1 with rt := p.1 },
        match p.2 with
        | ScheduleOutcome.timer d => [SysAction.scheduleTimer d]
        | ScheduleOutcome.maxReached => [SysAction.maxAttemptsError]
        | ScheduleOutcome.skipped => [])
  | SysEvent.reconnectTimer =>
    if s.rt.isClosing then (s, []) else (s, [SysAction.reconnectStart])
  | SysEvent.reqTimeout e =>
    if e ∈ s.pending then
      ({ s with pending := s.pending.erase e }, [SysAction.settle e SettleKind.timeoutErr])
    else (s, [])
  | SysEvent.frame r =>
    if s.wsAttached then
      match r.echo with
      | some e =>
        if e ≠ "" then
          if e ∈ s.pending then
            ({ s with pending := s.pending.erase e },
              [SysAction.settle e (interpretResponse r)])
          else (s, [])
        else (s, [])
      | none => (s, [])
    else (s, [])

/-- Run a trace of events, accumulating actions in order. -/
def runSys : SysState → List SysEvent → SysState × List SysAction
  | s, [] => (s, [])
  | s, e :: rest =>
    let p := stepSys s e
    let q := runSys p.1 rest
    (q.1, p.2 ++ q.2)

/-- The settle actions for a given token within an action list. -/
def settlesFor (e : String) (acts : List SysAction) : List SysAction :=
  acts.filter (fun a => match a with
    | SysAction.settle e' _ => e' = e
    | _ => false)

/-! ### Decimal digits helpers (injectivity of correlation tokens) -/

/-- Numeric value of a decimal digit character. -/
def chVal (c : Char) : Nat := c.toNat - 48

/-- Value of a big-endian decimal digit string. -/
def digitsVal : List Char → Nat
  | [] => 0
  | c :: cs => chVal c * 10 ^ cs.length + digitsVal cs

/-- The characters after the last underscore. -/
def afterLastSep (l : List Char) : List Char :=
  ((l.reverse).takeWhile (fun c => c ≠ '_')).reverse

/-! ### Lemmas: decimal digits and correlation-token injectivity -/

/-- Base-10 digit characters are never an underscore. -/
theorem digitChar_ne_underscore {m : Nat} (h : m < 10) : Nat.digitChar m ≠ '_' := by
  interval_cases m <;> decide

/-- `chVal` inverts `Nat.digitChar` on base-10 digits. -/
theorem chVal_digitChar {m : Nat} (h : m < 10) : chVal (Nat.digitChar m) = m := by
  interval_cases m <;> decide

/-- No character produced by `Nat.toDigitsCore 10` is an underscore. -/
theorem toDigitsCore_ne_underscore (fuel : Nat) :
    ∀ (n : Nat) (ds : List Char), (∀ c ∈ ds, c ≠ '_') →
      ∀ c ∈ Nat.toDigitsCore 10 fuel n ds, c ≠ '_' := by
  induction fuel with
  | zero => intro n ds h; simpa [Nat.toDigitsCore] using h
  | succ fuel ih =>
    intro n ds h
    rw [Nat.toDigitsCore]
    split
    · intro c hc
      rcases List.mem_cons.mp hc with rfl | hc
      · exact digitChar_ne_underscore (Nat.mod_lt n (by norm_num))
      · exact h c hc
    · refine ih _ _ ?_
      intro c hc
      rcases List.mem_cons.mp hc with rfl | hc
      · exact digitChar_ne_underscore (Nat.mod_lt n (by norm_num))
      · exact h c hc

/-- No character of a decimal numeral is an underscore. -/
theorem toDigits_ne_underscore (n : Nat) : ∀ c ∈ Nat.toDigits 10 n, c ≠ '_' :=
  toDigitsCore_ne_underscore (n + 1) n [] (by intro c hc; cases hc)

/-- Value of the digit list produced by `Nat.toDigitsCore 10`. -/
theorem toDigitsCore_val (fuel : Nat) :
    ∀ (n : Nat) (ds : List Char), n < 10 ^ fuel →
      digitsVal (Nat.toDigitsCore 10 fuel n ds) = n * 10 ^ ds.length + digitsVal ds := by
  induction fuel with
  | zero =>
    intro n ds h
    interval_cases n
    simp [Nat.toDigitsCore, digitsVal]
  | succ fuel ih =>
    intro n ds h
    rw [Nat.toDigitsCore]
    split
    · rename_i h0
      have hn10 : n < 10 := by
        by_contra hge
        have h1 : 10 / 10 ≤ n / 10 := Nat.div_le_div_right (by omega)
        omega
      rw [show n % 10 = n from Nat.mod_eq_of_lt hn10]
      simp [digitsVal, chVal_digitChar hn10]
    · rename_i h0
      have h10 : n / 10 < 10 ^ fuel := by
        rw [Nat.div_lt_iff_lt_mul (by norm_num)]
        calc n < 10 ^ (fuel + 1) := h
        _ = 10 ^ fuel * 10 := by ring
      rw [ih (n / 10) _ h10]
      simp only [digitsVal, List.length_cons,
        chVal_digitChar (Nat.mod_lt n (by norm_num))]
      have hsplit : n = 10 * (n / 10) + n % 10 := (Nat.div_add_mod n 10).symm
      calc n / 10 * 10 ^ (ds.length + 1) + (n % 10 * 10 ^ ds.length + digitsVal ds)
          = (10 * (n / 10) + n % 10) * 10 ^ ds.length + digitsVal ds := by ring
        _ = n * 10 ^ ds.length + digitsVal ds := by rw [← hsplit]

/-- Evaluating the decimal numeral of `n` gives back `n`. -/
theorem digitsVal_toDigits (n : Nat) : digitsVal (Nat.toDigits 10 n) = n := by
  have h : n < 10 ^ (n + 1) :=
    lt_of_lt_of_le (Nat.lt_pow_self (by norm_num) n)
      (Nat.pow_le_pow_right (by norm_num) (Nat.le_succ n))
  simpa [digitsVal] using toDigitsCore_val (n + 1) n [] h

/-- Decimal printing of naturals is injective. -/
theorem nat_repr_inj {a b : Nat} (h : Nat.repr a = Nat.repr b) : a = b := by
  have hd : Nat.toDigits 10 a = Nat.toDigits 10 b := congrArg String.data h
  have := congrArg digitsVal hd
  rwa [digitsVal_toDigits, digitsVal_toDigits] at this

/-- `takeWhile` over a list of non-underscore characters followed by an
underscore returns exactly the prefix. -/
theorem takeWhile_until_underscore (l1 l2 : List Char) (h1 : ∀ c ∈ l1, c ≠ '_') :
    (l1 ++ '_' :: l2).takeWhile (fun c => c ≠ '_') = l1 := by
  induction l1 with
  | nil => simp
  | cons c cs ih =>
    have hc : c ≠ '_' := h1 c (List.mem_cons_self c cs)
    simp only [List.cons_append, List.takeWhile_cons, decide_eq_true hc, if_true,
      List.cons.injEq, true_and]
    exact ih (fun d hd => h1 d (List.mem_cons_of_mem c hd))

/-- `afterLastSep` recovers the part after the last underscore. -/
theorem afterLastSep_append (l1 l2 : List Char) (h : ∀ c ∈ l2, c ≠ '_') :
    afterLastSep (l1 ++ '_' :: l2) = l2 := by
  unfold afterLastSep
  have : (l1 ++ '_' :: l2).reverse = l2.reverse ++ '_' :: l1.reverse := by
    simp
  rw [this, takeWhile_until_underscore _ _ (by intro c hc; exact h c (List.mem_reverse.mp hc)),
    List.reverse_reverse]

/-- The character list of a correlation token, shaped around its last
underscore. -/
theorem mkEcho_data (t s : Nat) :
    (mkEcho t s).data = ("api_".data ++ Nat.toDigits 10 t) ++ '_' :: Nat.toDigits 10 s := by
  have ht : (Nat.repr t).data = Nat.toDigits 10 t := rfl
  have hs : (Nat.repr s).data = Nat.toDigits 10 s := rfl
  simp [mkEcho, ht, hs]

/-- The part of a correlation token after its last underscore is the
decimal numeral of the sequence counter. -/
theorem afterLastSep_mkEcho (t s : Nat) :
    afterLastSep (mkEcho t s).data = Nat.toDigits 10 s := by
  rw [mkEcho_data, afterLastSep_append _ _ (toDigits_ne_underscore s)]

/-- Correlation tokens with different sequence counters are distinct, no
matter what timestamps they embed. -/
theorem mkEcho_seq_inj {t1 s1 t2 s2 : Nat} (h : mkEcho t1 s1 = mkEcho t2 s2) : s1 = s2 := by
  have hd : afterLastSep (mkEcho t1 s1).data = afterLastSep (mkEcho t2 s2).data := by rw [h]
  rw [afterLastSep_mkEcho, afterLastSep_mkEcho] at hd
  have := congrArg digitsVal hd
  rwa [digitsVal_toDigits, digitsVal_toDigits] at this

/-! ### Lemmas: the event-trace system -/

/-- No event ever adds a token to the pending-request table. -/
theorem stepSys_pending_mono (s : SysState) (e : SysEvent) {x : String}
    (hx : x ∈ (stepSys s e).1.pending) : x ∈ s.pending := by
  cases e with
  | stopCall => simpa [stepSys] using hx
  | wsClose =>
    rw [stepSys] at hx
    split at hx <;> simpa using hx
  | reconnectTimer =>
    rw [stepSys] at hx
    split at hx <;> simpa using hx
  | reqTimeout y =>
    rw [stepSys] at hx
    split at hx
    · exact List.mem_of_mem_erase (by simpa using hx)
    · simpa using hx
  | frame r =>
    rw [stepSys] at hx
    split at hx
    · split at hx
      · split at hx
        · split at hx
          · exact List.mem_of_mem_erase (by simpa using hx)
          · simpa using hx
        · simpa using hx
      · simpa using hx
    · simpa using hx

/-- A token that is not pending never settles nor re-enters the table. -/
theorem stepSys_not_pending (s : SysState) (e : SysEvent) {x : String}
    (hx : x ∉ s.pending) :
    x ∉ (stepSys s e).1.pending ∧ settlesFor x (stepSys s e).2 = [] := by
  refine ⟨fun hmem => hx (stepSys_pending_mono s e hmem), ?_⟩
  cases e with
  | stopCall => simp [stepSys, settlesFor]
  | wsClose =>
    rw [stepSys]
    split
    · simp [settlesFor]
    · rcases h : (scheduleReconnect { s with wsAttached := false }.rt).2 with d | _ | _ <;>
        simp [settlesFor, h]
  | reconnectTimer =>
    rw [stepSys]
    split <;> simp [settlesFor]
  | reqTimeout y =>
    rw [stepSys]
    split
    · rename_i hy
      have hxy : y ≠ x := fun h => hx (h ▸ hy)
      simp [settlesFor, hxy]
    · simp [settlesFor]
  | frame r =>
    rw [stepSys]
    split
    · split
      · split
        · split
          · rename_i hy
            have hxy : _ ≠ x := fun h => hx (h ▸ hy)
            simp [settlesFor, hxy]
          · simp [settlesFor]
        · simp [settlesFor]
      · simp [settlesFor]
    · simp [settlesFor]

/-- Over a whole trace: a token that is not pending never settles. -/
theorem runSys_not_pending (s : SysState) (evs : List SysEvent) {x : String}
    (hx : x ∉ s.pending) : settlesFor x (runSys s evs).2 = [] := by
  induction evs generalizing s with
  | nil => simp [runSys, settlesFor]
  | cons e rest ih =>
    rw [runSys]
    have h1 := stepSys_not_pending s e hx
    simp only [settlesFor, List.filter_append] at ih ⊢
    rw [show (stepSys s e).2.filter _ = [] from h1.2, List.nil_append]
    exact ih _ h1.1

/-- `isClosing`, once set, is never cleared by any event. -/
theorem stepSys_isClosing (s : SysState) (e : SysEvent) (h : s.rt.isClosing = true) :
    (stepSys s e).1.rt.isClosing = true := by
  cases e with
  | stopCall => simp [stepSys]
  | wsClose => rw [stepSys]; split <;> simp_all
  | reconnectTimer => rw [stepSys]; split <;> simp_all
  | reqTimeout y => rw [stepSys]; split <;> simp_all
  | frame r =>
    rw [stepSys]
    split
    · split
      · split
        · split <;> simp_all
        · simp_all
      · simp_all
    · simp_all

/-- While closing, no single step schedules or starts a reconnect. -/
theorem stepSys_closing_no_reconnect (s : SysState) (e : SysEvent)
    (h : s.rt.isClosing = true) :
    ∀ a ∈ (stepSys s e).2, isReconnectAction a = false := by
  cases e with
  | stopCall => simp [stepSys]
  | wsClose => rw [stepSys]; split <;> simp_all
  | reconnectTimer => rw [stepSys]; split <;> simp_all [isReconnectAction]
  | reqTimeout y => rw [stepSys]; split <;> simp_all [isReconnectAction]
  | frame r =>
    rw [stepSys]
    split
    · split
      · split
        · split <;> simp_all [isReconnectAction]
        · simp_all
      · simp_all
    · simp_all

/-- While closing, no trace of events ever schedules or starts a
reconnect. -/
theorem runSys_closing_no_reconnect (s : SysState) (evs : List SysEvent)
    (h : s.rt.isClosing = true) :
    ∀ a ∈ (runSys s evs).2, isReconnectAction a = false := by
  induction evs generalizing s with
  | nil => simp [runSys]
  | cons e rest ih =>
    rw [runSys]
    intro a ha
    rcases List.mem_append.mp ha with ha | ha
    · exact stepSys_closing_no_reconnect s e h a ha
    · exact ih _ (stepSys_isClosing s e h) a ha

/-- A detached socket stays detached (no event in the model re-opens it). -/
theorem stepSys_wsDetached (s : SysState) (e : SysEvent) (h : s.wsAttached = false) :
    (stepSys s e).1.wsAttached = false := by
  cases e with
  | stopCall => simp [stepSys]
  | wsClose => rw [stepSys]; split <;> simp_all
  | reconnectTimer => rw [stepSys]; split <;> simp_all
  | reqTimeout y => rw [stepSys]; split <;> simp_all
  | frame r =>
    rw [stepSys]
    split
    · simp_all
    · simp_all

/-- A detached socket stays detached over a whole trace. -/
theorem runSys_wsDetached (s : SysState) (evs : List SysEvent) (h : s.wsAttached = false) :
    (runSys s evs).1.wsAttached = false := by
  induction evs generalizing s with
  | nil => simpa [runSys] using h
  | cons e rest ih => rw [runSys]; exact ih _ (stepSys_wsDetached s e h)

/-- Frames arriving while the socket is detached are dropped wholesale. -/
theorem stepSys_frame_detached (s : SysState) (r : OB11Resp) (h : s.wsAttached = false) :
    stepSys s (SysEvent.frame r) = (s, []) := by
  rw [stepSys]
  split
  · simp_all
  · rfl

/-- The delays emitted by iterating `scheduleReconnect` from attempt count
`a`: one timer per attempt until the cap, with the backoff delays. -/
theorem scheduleRun_delays :
    ∀ (k a : Nat), a ≤ maxReconnectAttempts →
      (scheduleRun { reconnectAttempts := a, isClosing := false, wsUrlConfigured := true } k).2
        = (List.range (min k (maxReconnectAttempts - a))).map
            (fun i => reconnectDelay (a + i + 1)) := by
  intro k
  induction k with
  | zero => intro a ha; simp [scheduleRun]
  | succ k ih =>
    intro a ha
    rw [scheduleRun]
    by_cases h10 : a ≥ maxReconnectAttempts
    · have hae : a = maxReconnectAttempts := le_antisymm ha h10
      subst hae
      rw [show (scheduleReconnect
          { reconnectAttempts := maxReconnectAttempts, isClosing := false,
            wsUrlConfigured := true })
        = ({ reconnectAttempts := maxReconnectAttempts, isClosing := false,
             wsUrlConfigured := true }, ScheduleOutcome.maxReached) from by
          simp [scheduleReconnect]]
      rw [ih maxReconnectAttempts le_rfl]
      simp
    · have ha' : a < maxReconnectAttempts := lt_of_not_ge h10
      rw [show (scheduleReconnect
          { reconnectAttempts := a, isClosing := false, wsUrlConfigured := true })
        = ({ reconnectAttempts := a + 1, isClosing := false, wsUrlConfigured := true },
            ScheduleOutcome.timer (reconnectDelay (a + 1))) from by
          simp [scheduleReconnect, h10]]
      rw [ih (a + 1) (by omega)]
      have hmin : min (k + 1) (maxReconnectAttempts - a)
          = (min k (maxReconnectAttempts - (a + 1))) + 1 := by omega
      rw [hmin, List.range_succ_eq_map]
      simp only [List.map_cons, List.map_map, List.singleton_append, Function.comp]
      refine congrArg₂ _ (by norm_num) ?_
      refine List.map_congr_left ?_
      intro i _
      simp only [Function.comp_apply, Nat.succ_eq_add_one]
      exact congrArg reconnectDelay (by omega)

/-! ### Claim theorems -/

/-- C1: for every action call, if an HTTP endpoint is configured the call
is routed over HTTP (regardless of the socket, open or not); if no HTTP
endpoint is configured and the socket is open, the call is routed over the
socket; and if neither transport is available the call fails with the
"no transport available" error. -/
theorem transport_precedence (c : NapCatApiClientState) :
    (jsTruthy c.httpUrl = true → request c = Except.ok Chosen.http) ∧
    (jsTruthy c.httpUrl = false → wsOpenB c = true →
      request c = Except.ok Chosen.wsTransport) ∧
    (jsTruthy c.httpUrl = false → wsOpenB c = false →
      request c = Except.error
        "No available transport for API request (HTTP not configured, WS not connected)") := by
  refine ⟨fun h => ?_, fun h hw => ?_, fun h hw => ?_⟩
  · simp [request, h]
  · simp [request, h, hw]
  · simp [request, h, hw]

/-- Witness for C1: with HTTP configured and the socket open the call still
goes over HTTP; without HTTP the open socket is used; with neither, the
error is raised. -/
theorem transport_precedence_witness :
    request { httpUrl := some "http://127.0.0.1:3000", ws := some WsReadyState.opened,
              wsSequence := 0 } = Except.ok Chosen.http ∧
    request { httpUrl := none, ws := some WsReadyState.opened, wsSequence := 0 }
        = Except.ok Chosen.wsTransport ∧
    request { httpUrl := none, ws := none, wsSequence := 0 }
        = Except.error
            "No available transport for API request (HTTP not configured, WS not connected)" :=
  ⟨(transport_precedence _).1 (by decide),
   (transport_precedence _).2.1 (by decide) (by decide),
   (transport_precedence _).2.2 (by decide) (by decide)⟩

/-- C10: an account configured with an empty `adminUins` list filters
nothing: every sender passes the allowlist check, and inbound processing
is exactly as if no allowlist were configured. -/
theorem empty_allowlist_filters_nothing :
    (∀ userId, adminAllows (some []) userId = true) ∧
    (∀ ev, normalizeEvent (some []) ev = normalizeEvent none ev) := by
  constructor
  · intro userId; simp [adminAllows]
  · intro ev; simp [normalizeEvent, adminAllows]

/-- C4: the reconnect delays for attempts 1..5 are exactly 3000, 4500,
6750, 10125, 15187 whole milliseconds (the computed values are
3000·1.5^(n−1) capped at 60000; Node's timer machinery truncates the
fractional 15187.5 to 15187), every delay is capped at 60000 ms, and
iterating the scheduler any number of times schedules exactly
`min k 10` timers — an 11th attempt is never scheduled. -/
theorem reconnect_backoff :
    (scheduledDelayMs 1 = 3000 ∧ scheduledDelayMs 2 = 4500 ∧ scheduledDelayMs 3 = 6750 ∧
      scheduledDelayMs 4 = 10125 ∧ scheduledDelayMs 5 = 15187) ∧
    (∀ n, reconnectDelay n ≤ 60000) ∧
    (∀ k, (scheduleRun freshRt k).2
        = (List.range (min k maxReconnectAttempts)).map (fun i => reconnectDelay (i + 1))) := by
  refine ⟨⟨?_, ?_, ?_, ?_, ?_⟩, fun n => min_le_right _ _, fun k => ?_⟩
  · rw [scheduledDelayMs, Int.floor_eq_iff]
    norm_num [reconnectDelay, baseReconnectDelay]
  · rw [scheduledDelayMs, Int.floor_eq_iff]
    norm_num [reconnectDelay, baseReconnectDelay]
  · rw [scheduledDelayMs, Int.floor_eq_iff]
    norm_num [reconnectDelay, baseReconnectDelay]
  · rw [scheduledDelayMs, Int.floor_eq_iff]
    norm_num [reconnectDelay, baseReconnectDelay]
  · rw [scheduledDelayMs, Int.floor_eq_iff]
    norm_num [reconnectDelay, baseReconnectDelay]
  · have h := scheduleRun_delays k 0 (by norm_num [maxReconnectAttempts])
    have hfr : freshRt
        = { reconnectAttempts := 0, isClosing := false, wsUrlConfigured := true } := rfl
    rw [hfr, h]
    simp

/-- C6: a group message whose segments are `[text "hello ", at self,
text " world"]`, with `self` the bot identity, passes the mention gate and
normalizes to the text `"hello  world"` (text segments concatenated in
order, the mention contributing nothing); private messages always pass the
mention gate. -/
theorem mention_gate_normalization :
    (∀ selfId userId msgId groupId,
      normalizeEvent none
        { message_type := MsgType.group, user_id := userId, self_id := selfId,
          message_id := msgId, group_id := some groupId,
          message := Message.segs
            [{ type := "text", text := some "hello " },
             { type := "at", qq := some (Nat.repr selfId) },
             { type := "text", text := some " world" }] }
        = some { text := "hello  world", mediaUrl := none }) ∧
    (∀ ev, ev.message_type = MsgType.priv → mentionGate ev = true) := by
  constructor
  · intro selfId userId msgId groupId
    have hms : isMentionedSegs
        [{ type := "text", text := some "hello " },
         { type := "at", qq := some (Nat.repr selfId) },
         { type := "text", text := some " world" }] selfId = true := by
      simp [isMentionedSegs]
    simp [normalizeEvent, adminAllows, mentionGate, isMentioned, hms, extractText,
      extractTextSegs, extractMedia, jsTrim, jsTruthy, jsOr, String.join]
  · intro ev h
    simp [mentionGate, h]

/-- Witness for C6: the concrete round-trip with bot identity 42, and a
private event passing the gate. -/
theorem mention_gate_normalization_witness :
    normalizeEvent none
      { message_type := MsgType.group, user_id := 1, self_id := 42, message_id := 7,
        group_id := some 9,
        message := Message.segs
          [{ type := "text", text := some "hello " },
           { type := "at", qq := some (Nat.repr 42) },
           { type := "text", text := some " world" }] }
      = some { text := "hello  world", mediaUrl := none } ∧
    mentionGate
      { message_type := MsgType.priv, user_id := 1, self_id := 42, message_id := 7,
        message := Message.str "hi" } = true :=
  ⟨mention_gate_normalization.1 42 1 7 9,
   mention_gate_normalization.2 _ rfl⟩

/-- C2: a socket-transported call whose 10-second timeout fires (no
matching response arrived before it) settles exactly once, with the
Timeout error — which is distinct from the protocol-level NapCat API
error — and no later event, including a late or duplicated response frame
carrying the same correlation token, ever settles it again. -/
theorem ws_timeout_single_resolution (s : SysState) (e : String) (post : List SysEvent)
    (hmem : e ∈ s.pending) (hnd : s.pending.Nodup) :
    (stepSys s (SysEvent.reqTimeout e)).2 = [SysAction.settle e SettleKind.timeoutErr] ∧
    settlesFor e (runSys (stepSys s (SysEvent.reqTimeout e)).1 post).2 = [] ∧
    (∀ retcode, SettleKind.timeoutErr ≠ SettleKind.napcatErr retcode) := by
  have hstep : stepSys s (SysEvent.reqTimeout e)
      = ({ s with pending := s.pending.erase e },
         [SysAction.settle e SettleKind.timeoutErr]) := by
    simp [stepSys, hmem]
  refine ⟨by rw [hstep], ?_, fun retcode => by simp⟩
  rw [hstep]
  exact runSys_not_pending _ post hnd.not_mem_erase

/-- Witness for C2: one pending request times out; the late response and a
duplicate frame with the same token settle nothing. -/
theorem ws_timeout_single_resolution_witness :
    (stepSys { rt := freshRt, wsAttached := true, pending := ["api_0_0"] }
        (SysEvent.reqTimeout "api_0_0")).2
      = [SysAction.settle "api_0_0" SettleKind.timeoutErr] ∧
    settlesFor "api_0_0"
      (runSys (stepSys { rt := freshRt, wsAttached := true, pending := ["api_0_0"] }
          (SysEvent.reqTimeout "api_0_0")).1
        [SysEvent.frame { status := "ok", retcode := 0, echo := some "api_0_0" },
         SysEvent.frame { status := "failed", retcode := 1, echo := some "api_0_0" }]).2
      = [] ∧
    (∀ retcode, SettleKind.timeoutErr ≠ SettleKind.napcatErr retcode) :=
  ws_timeout_single_resolution _ "api_0_0" _ (by decide) (by decide)

/-- C5: correlation tokens generated with distinct values of the
`wsSequence` counter are distinct strings no matter what `Date.now()`
timestamps they embed — so any two simultaneously outstanding calls (which
consume distinct counter values) carry distinct tokens; and a response
frame whose token matches no pending request leaves the pending-request
table unchanged and settles nothing. -/
theorem correlation_tokens :
    (∀ t1 s1 t2 s2 : Nat, s1 ≠ s2 → mkEcho t1 s1 ≠ mkEcho t2 s2) ∧
    (∀ (s : SysState) (r : OB11Resp) (e : String),
      r.echo = some e → e ∉ s.pending → stepSys s (SysEvent.frame r) = (s, [])) := by
  constructor
  · intro t1 s1 t2 s2 hs h
    exact hs (mkEcho_seq_inj h)
  · intro s r e he hmem
    by_cases hws : s.wsAttached = true
    · rw [stepSys, he]
      simp only [hws, if_true]
      by_cases hne : e = ""
      · simp [hne]
      · simp [hne, hmem]
    · exact stepSys_frame_detached s r (by simpa using hws)

/-- Witness for C5: two tokens sharing a timestamp but not a counter value
differ, and an unknown-token response is a no-op on the table. -/
theorem correlation_tokens_witness :
    mkEcho 1700000000000 0 ≠ mkEcho 1700000000000 1 ∧
    stepSys { rt := freshRt, wsAttached := true, pending := ["api_1_1"] }
        (SysEvent.frame { status := "ok", retcode := 0, echo := some "api_9_9" })
      = ({ rt := freshRt, wsAttached := true, pending := ["api_1_1"] }, []) :=
  ⟨correlation_tokens.1 1700000000000 0 1700000000000 1 (by decide),
   correlation_tokens.2 _ _ "api_9_9" rfl (by decide)⟩

/-- C7 counterexample: with one request pending, calling `stop()` and then
letting the request's 10-second timer fire makes the pending-request
callback fire (the call rejects with the timeout error) *after* `stop()` —
so "no pending-request callbacks fire after stop()" is false as stated:
`stop()` does not cancel the request's expiry timer. -/
theorem stop_pending_callback_fires :
    ((runSys { rt := freshRt, wsAttached := true, pending := ["api_0_0"] }
        [SysEvent.stopCall, SysEvent.reqTimeout "api_0_0"]).2.filter isSettle)
      = [SysAction.settle "api_0_0" SettleKind.timeoutErr] := by decide

/-- C7 (amended): `stop()` is idempotent (a second `stop()` reproduces the
same state and, like the first, emits nothing); after `stop()` no reconnect
is ever scheduled or started by any later event; `stop()` leaves the
pending-request table untouched, so a pending request's timeout callback
still fires afterwards (rejecting with the timeout error); and response
frames arriving after `stop()` are discarded — the socket is detached, so
they are never delivered to abandoned pending requests. -/
theorem stop_semantics :
    (∀ s : SysState,
      stepSys (stepSys s SysEvent.stopCall).1 SysEvent.stopCall = stepSys s SysEvent.stopCall ∧
      (stepSys s SysEvent.stopCall).2 = []) ∧
    (∀ (s : SysState) (evs : List SysEvent),
      ∀ a ∈ (runSys (stepSys s SysEvent.stopCall).1 evs).2, isReconnectAction a = false) ∧
    (∀ s : SysState, (stepSys s SysEvent.stopCall).1.pending = s.pending) ∧
    (∀ (s : SysState) (e : String), e ∈ s.pending →
      (stepSys (stepSys s SysEvent.stopCall).1 (SysEvent.reqTimeout e)).2
        = [SysAction.settle e SettleKind.timeoutErr]) ∧
    (∀ (s : SysState) (evs : List SysEvent) (r : OB11Resp),
      stepSys (runSys (stepSys s SysEvent.stopCall).1 evs).1 (SysEvent.frame r)
        = ((runSys (stepSys s SysEvent.stopCall).1 evs).1, [])) := by
  refine ⟨fun s => ⟨by simp [stepSys], by simp [stepSys]⟩, fun s evs => ?_, fun s => ?_,
    fun s e hmem => ?_, fun s evs r => ?_⟩
  · exact runSys_closing_no_reconnect _ evs (by simp [stepSys])
  · simp [stepSys]
  · have h1 : (stepSys s SysEvent.stopCall).1
        = { rt := { reconnectAttempts := 0, isClosing := true,
                    wsUrlConfigured := s.rt.wsUrlConfigured },
            wsAttached := false, pending := s.pending } := rfl
    rw [h1, stepSys]
    simp [hmem]
  · exact stepSys_frame_detached _ r (runSys_wsDetached _ evs (by simp [stepSys]))

/-- Witness for C7 (amended): concrete stop on a runtime with one pending
request; the timeout still settles it afterwards. -/
theorem stop_semantics_witness :
    (stepSys (stepSys { rt := freshRt, wsAttached := true, pending := ["api_0_0"] }
        SysEvent.stopCall).1 (SysEvent.reqTimeout "api_0_0")).2
      = [SysAction.settle "api_0_0" SettleKind.timeoutErr] :=
  stop_semantics.2.2.2.1 { rt := freshRt, wsAttached := true, pending := ["api_0_0"] }
    "api_0_0" (by decide)

/-- C8 counterexample: when the socket closes with a request pending, the
pending request is *not* destroyed at close time and nothing rejects it:
the close step leaves it in the table and fires no settle — contradicting
"every pending request is destroyed at close time and its callback rejects
because of the close". -/
theorem close_leaves_pending :
    (stepSys { rt := freshRt, wsAttached := true, pending := ["api_0_0"] }
        SysEvent.wsClose).1.pending = ["api_0_0"] ∧
    ((stepSys { rt := freshRt, wsAttached := true, pending := ["api_0_0"] }
        SysEvent.wsClose).2.filter isSettle) = [] := by
  constructor
  · rw [stepSys]
    simp [freshRt, scheduleReconnect, maxReconnectAttempts]
  · rw [stepSys]
    simp [freshRt, scheduleReconnect, maxReconnectAttempts, isSettle]

/-- C8 (amended): a socket close leaves every pending request in the table
(none is destroyed or rejected at close time); a pending request is
removed from the table only by its own timeout or by a response frame
carrying its token; and after a close the request's own 10-second timeout
still fires and rejects it. -/
theorem close_pending_semantics :
    (∀ s : SysState, (stepSys s SysEvent.wsClose).1.pending = s.pending ∧
      (stepSys s SysEvent.wsClose).2.filter isSettle = []) ∧
    (∀ (s : SysState) (ev : SysEvent) (e : String), e ∈ s.pending →
      e ∉ (stepSys s ev).1.pending →
      (ev = SysEvent.reqTimeout e ∨ ∃ r, ev = SysEvent.frame r ∧ r.echo = some e)) ∧
    (∀ (s : SysState) (e : String), e ∈ s.pending →
      (stepSys (stepSys s SysEvent.wsClose).1 (SysEvent.reqTimeout e)).2
        = [SysAction.settle e SettleKind.timeoutErr]) := by
  refine ⟨fun s => ⟨?_, ?_⟩, fun s ev e hmem hout => ?_, fun s e hmem => ?_⟩
  · rw [stepSys]
    split
    · rfl
    · rcases (scheduleReconnect { s with wsAttached := false }.rt).2 with d | _ | _ <;> rfl
  · rw [stepSys]
    split
    · rfl
    · cases h : (scheduleReconnect s.rt).2 <;> simp [h, isSettle]
  · cases ev with
    | stopCall => exact absurd (by simpa [stepSys] using hmem) hout
    | wsClose =>
      exfalso
      apply hout
      rw [stepSys]
      split
      · simpa using hmem
      · simpa using hmem
    | reconnectTimer =>
      exfalso
      apply hout
      rw [stepSys]
      split <;> simpa using hmem
    | reqTimeout y =>
      by_cases hy : y = e
      · exact Or.inl (by rw [hy])
      · exfalso
        apply hout
        rw [stepSys]
        split
        · simpa [(List.mem_erase_of_ne (fun h => hy h.symm))] using hmem
        · simpa using hmem
    | frame r =>
      rw [stepSys] at hout
      split at hout
      · split at hout
        · rename_i y heq
          split at hout
          · split at hout
            · rename_i hne hyp
              by_cases hy : y = e
              · exact Or.inr ⟨r, rfl, by rw [heq, hy]⟩
              · exact absurd ((List.mem_erase_of_ne (fun h => hy h.symm)).mpr hmem)
                  (by simpa using hout)
            · exact absurd hmem (by simpa using hout)
          · exact absurd hmem (by simpa using hout)
        · exact absurd hmem (by simpa using hout)
      · exact absurd hmem (by simpa using hout)
  · have hp : (stepSys s SysEvent.wsClose).1.pending = s.pending := by
      rw [stepSys]
      split
      · rfl
      · rfl
    generalize hT : (stepSys s SysEvent.wsClose).1 = T at hp
    rw [stepSys]
    simp [hp, hmem]

/-- Witness for C8 (amended): concrete close with one pending request,
followed by its timeout; and the only-removal-paths fact exercised at the
timeout event. -/
theorem close_pending_semantics_witness :
    (stepSys (stepSys { rt := freshRt, wsAttached := true, pending := ["api_0_0"] }
        SysEvent.wsClose).1 (SysEvent.reqTimeout "api_0_0")).2
      = [SysAction.settle "api_0_0" SettleKind.timeoutErr] ∧
    (SysEvent.reqTimeout "api_0_0" = SysEvent.reqTimeout "api_0_0" ∨
      ∃ r, SysEvent.reqTimeout "api_0_0" = SysEvent.frame r ∧ r.echo = some "api_0_0") :=
  ⟨close_pending_semantics.2.2 { rt := freshRt, wsAttached := true, pending := ["api_0_0"] }
      "api_0_0" (by decide),
   close_pending_semantics.2.1 { rt := freshRt, wsAttached := true, pending := ["api_0_0"] }
      (SysEvent.reqTimeout "api_0_0") "api_0_0" (by decide) (by decide)⟩

/-- C3 counterexample: first delivery carries media (claim: "either
carries any media — both fire"), second is a media-free byte-identical
resend 1 s later; only ONE send fires, because the media-bearing first
send records its text and the second is then suppressed by the dedup
window. -/
theorem first_media_suppresses_second :
    sendsOfTwo fsEmpty (some "hi") ["m"] 0 (some "hi") [] 1000 = 1 ∧
    sendsOfTwo fsEmpty (some "hi") ["m"] 0 (some "hi") [] 1000 ≠ 2 := by
  constructor <;> decide

/-- C3 (amended): for two reply deliveries with the same conversation id
and originating message id, starting from no record for that key: if both
have no media and non-empty byte-identical text and the second comes under
5000 ms after the first, exactly one send fires; if they are at least
5000 ms apart (e.g. 6 s), or have differing text, or the SECOND carries
media, both fire (a media-free byte-identical second delivery within the
window is suppressed even when the first carried media, since every
non-suppressed send — media-bearing or not — records its text); and every
non-suppressed send overwrites the record with the sent text and
timestamp. -/
theorem reply_dedup (fs : FS) :
    (∀ (t : String) (t1 t2 : Int), t ≠ "" → t2 - t1 < 5000 →
      sendsOfTwo fs (some t) [] t1 (some t) [] t2 = 1) ∧
    (∀ (t : String) (t1 t2 : Int), t ≠ "" → 5000 ≤ t2 - t1 →
      sendsOfTwo fs (some t) [] t1 (some t) [] t2 = 2) ∧
    (∀ (ta tb : String) (t1 t2 : Int), ta ≠ "" → tb ≠ "" → ta ≠ tb →
      sendsOfTwo fs (some ta) [] t1 (some tb) [] t2 = 2) ∧
    (∀ (ta tb : Option String) (m1 m2 : List String) (t1 t2 : Int),
      (jsTruthy ta = true ∨ m1 ≠ []) → m2 ≠ [] →
      sendsOfTwo fs ta m1 t1 tb m2 t2 = 2) ∧
    (∀ (last : Option RecentReply) (tx : Option String) (m : List String) (now : Int),
      (deliver fs last tx m now).2.isSome = true →
      (deliver fs last tx m now).1 = some { text := tx.getD "", timestamp := now }) := by
  refine ⟨fun t t1 t2 ht htime => ?_, fun t t1 t2 ht htime => ?_,
    fun ta tb t1 t2 hta htb hne => ?_, fun ta tb m1 m2 t1 t2 h1 h2 => ?_,
    fun last tx m now h => ?_⟩
  · simp [sendsOfTwo, deliver, jsTruthy, ht, replyDedupWindowMs, htime]
  · have hnot : ¬(t2 - t1 < replyDedupWindowMs) := by
      rw [replyDedupWindowMs]; omega
    simp [sendsOfTwo, deliver, jsTruthy, ht, hnot]
  · have hne' : ¬(tb = ta) := fun h => hne h.symm
    simp [sendsOfTwo, deliver, jsTruthy, hta, htb, hne']
  · have hm2 : ¬(m2.length = 0) := by
      simpa [List.length_eq_zero] using h2
    rcases h1 with h1 | h1
    · simp [sendsOfTwo, deliver, h1, hm2]
    · have hm1 : ¬(m1.length = 0) := by
        simpa [List.length_eq_zero] using h1
      simp [sendsOfTwo, deliver, hm1, hm2]
  · rw [deliver.eq_def] at h ⊢
    split_ifs at h ⊢ <;> first | rfl | simp at h

/-- Witness for C3 (amended): each clause exercised at concrete inputs. -/
theorem reply_dedup_witness :
    sendsOfTwo fsEmpty (some "ok") [] 0 (some "ok") [] 1000 = 1 ∧
    sendsOfTwo fsEmpty (some "ok") [] 0 (some "ok") [] 6000 = 2 ∧
    sendsOfTwo fsEmpty (some "ok") [] 0 (some "no") [] 1000 = 2 ∧
    sendsOfTwo fsEmpty (some "ok") [] 0 (some "ok") ["pic"] 1000 = 2 ∧
    (deliver fsEmpty none (some "ok") [] 5).1 = some { text := "ok", timestamp := 5 } :=
  ⟨(reply_dedup fsEmpty).1 "ok" 0 1000 (by decide) (by decide),
   (reply_dedup fsEmpty).2.1 "ok" 0 6000 (by decide) (by decide),
   (reply_dedup fsEmpty).2.2.1 "ok" "no" 0 1000 (by decide) (by decide) (by decide),
   (reply_dedup fsEmpty).2.2.2.1 (some "ok") (some "ok") [] ["pic"] 0 1000
     (Or.inl (by decide)) (by decide),
   (reply_dedup fsEmpty).2.2.2.2 none (some "ok") [] 5 (by decide)⟩

/-- A string starting with `/` cannot start with `file://`. -/
theorem slash_not_file_prefix {item : String} (h : jsStartsWith item "/" = true) :
    jsStartsWith item "file://" = false := by
  unfold jsStartsWith at h ⊢
  have h1 : "/".data = ['/'] := rfl
  have h2 : "file://".data = ['f', 'i', 'l', 'e', ':', '/', '/'] := rfl
  rw [h1] at h
  rw [h2]
  cases hd : item.data with
  | nil =>
    rw [hd] at h
    exact absurd h (by decide)
  | cons c rest =>
    rw [hd] at h
    have hc : '/' = c := by simpa [List.cons_prefix_cons] using h
    rw [← hc]
    rfl

/-- C9 counterexample: a single media item that is an absolute path to a
file that does not exist is NOT passed through unchanged — the send action
carries it with a `file://` prefix. -/
theorem nonexistent_media_not_unchanged :
    resolveMediaItem fsEmpty "/tmp/missing.png" = "file:///tmp/missing.png" ∧
    ¬ resolveMediaItem fsEmpty "/tmp/missing.png" = "/tmp/missing.png" ∧
    (deliver fsEmpty none none ["/tmp/missing.png"] 0).2
      = some (MsgBody.segsBody [imageSeg "file:///tmp/missing.png"]) := by
  refine ⟨by decide, by decide, by decide⟩

/-- C9 (amended): a reply whose single media item is an absolute local
path to a nonexistent file does not raise — the item is re-encoded as a
`file://` location reference (the path prefixed with `file://`, never read
or base64-encoded) — and the pipeline still issues exactly one send action
carrying that item as an image segment. -/
theorem nonexistent_media_fallback (fs : FS) (item : String)
    (hslash : jsStartsWith item "/" = true) (hex : fs.pathExists item = false) :
    resolveMediaItem fs item = "file://" ++ item ∧
    deliver fs none none [item] 0
      = (some { text := "", timestamp := 0 },
         some (MsgBody.segsBody [imageSeg ("file://" ++ item)])) := by
  have hres : resolveMediaItem fs item = "file://" ++ item := by
    rw [resolveMediaItem.eq_def]
    simp [hslash, hex, slash_not_file_prefix hslash]
  refine ⟨hres, ?_⟩
  rw [deliver.eq_def]
  simp [jsTruthy, hres]

/-- Witness for C9 (amended): the concrete nonexistent path. -/
theorem nonexistent_media_fallback_witness :
    resolveMediaItem fsEmpty "/data/a.png" = "file://" ++ "/data/a.png" ∧
    deliver fsEmpty none none ["/data/a.png"] 0
      = (some { text := "", timestamp := 0 },
         some (MsgBody.segsBody [imageSeg ("file://" ++ "/data/a.png")])) :=
  nonexistent_media_fallback fsEmpty "/data/a.png" (by decide) (by decide)
